import Mathlib

/-!
# Shallow embedding of the nextjs-convex-load-tester measurement engine

This file embeds the load-generation and measurement core of the repository:

* the query-pattern registry and resolver (`getQueryLimit`,
  `src/app/api/load-test/route.ts:135-143` and the comparison script);
* the metrics accumulator mutated by `executeQuery` /
  `executeQueryWithSharedClient` / `executeQueryWithNewClient`
  (`route.ts:69-133`, identical statistics updates in all three scripts);
* the batch dispatcher loops (`route.ts:145-173`, `load-test.mjs:79-95`,
  and the duration-capable loop of the advanced script);
* the percentile / median / report computations (`route.ts:175-208`,
  `calculateMedianLatency` and `calculatePercentile` of the comparison
  script);
* the strategy-comparison verdict (`displayComparison` of the comparison
  script).

Conventions: JavaScript numbers that are always integers in the source
(latencies from `Date.now()` differences, byte counts, counters) are `ℕ`;
genuinely fractional values (durations, rates, averages) are `ℚ`.  A JS
division whose denominator is `0` produces `NaN` or `Infinity`; it is
modelled by `Option ℚ` with `none` standing for that non-finite outcome.
The `"display only"` string formatting (`toFixed`) belongs to the report
formatter, which the spec excludes from the core; the definitions here
model the numeric values before formatting.
-/

namespace LoadTester

/-! ## Query pattern registry and resolver -/

/-- An entry of `TEST_PATTERNS`: every concrete entry in the sources carries
either a fixed `limit` (all named sizes) or a `limits` array (the `mixed`
pattern). -/
inductive PatternEntry
  | fixed (limit : ℕ)
  | cycling (limits : List ℕ)
deriving DecidableEq

/-- Registry `TEST_PATTERNS` of `src/app/api/load-test/route.ts:35-44`, as the JS
property lookup `TEST_PATTERNS[pattern]` (an unknown key yields
`undefined`, modelled `none`). -/
def TEST_PATTERNS_route : String → Option PatternEntry := fun pattern =>
  if pattern = "small" then some (.fixed 1)
  else if pattern = "medium" then some (.fixed 10)
  else if pattern = "large" then some (.fixed 50)
  else if pattern = "xlarge" then some (.fixed 100)
  else if pattern = "xxlarge" then some (.fixed 250)
  else if pattern = "huge" then some (.fixed 500)
  else if pattern = "massive" then some (.fixed 1000)
  else if pattern = "mixed" then some (.cycling [1, 10, 50, 100, 250, 500])
  else none

/-- Registry `TEST_PATTERNS` of the advanced/comparison scripts (four entries, the
`mixed` list being `[1, 5, 10, 25, 50]`). -/
def TEST_PATTERNS_advanced : String → Option PatternEntry := fun pattern =>
  if pattern = "small" then some (.fixed 1)
  else if pattern = "medium" then some (.fixed 10)
  else if pattern = "large" then some (.fixed 50)
  else if pattern = "mixed" then some (.cycling [1, 5, 10, 25, 50])
  else none

/-- Resolver `getQueryLimit` (`route.ts:135-143`, comparison script lines 408-416):
looks the pattern up in the registry; for `"mixed"` it cycles through the
`limits` array by `queryNum % limits.length` (zero-based call index);
otherwise it returns the fixed `limit` of the entry.  An unknown pattern name
leaves `testPattern` undefined, so the subsequent property access throws a
`TypeError` — the failure the spec names `UnknownPatternError` — modelled
as `Except.error`.  (The two mismatch branches, a `"mixed"` entry without
`limits` or a named entry without `limit`, do not occur in either
registry.) -/
def getQueryLimit (registry : String → Option PatternEntry) (pattern : String)
    (queryNum : ℕ) : Except String ℕ :=
  match registry pattern with
  | none => .error "TypeError: pattern not in registry"
  | some entry =>
    if pattern = "mixed" then
      match entry with
      | .cycling limits => .ok (limits.getD (queryNum % limits.length) 0)
      | .fixed _ => .error "TypeError: pattern not in registry"
    else
      match entry with
      | .fixed limit => .ok limit
      | .cycling _ => .error "TypeError: pattern not in registry"

/-! ## Metrics accumulator -/

/-- One element of `stats.queries`: the record pushed for every successful
call (`route.ts:93`). -/
structure QueryRecord where
  queryNum : ℕ
  latency : ℕ
  bytes : ℕ
  limit : ℕ
deriving DecidableEq

/-- The five latency-bucket counters of `stats.latencyBuckets`
(`route.ts:26-32`): `"0-50ms"`, `"50-100ms"`, `"100-200ms"`, `"200-500ms"`,
`"500ms+"`. -/
structure LatencyBuckets where
  lt50 : ℕ
  lt100 : ℕ
  lt200 : ℕ
  lt500 : ℕ
  ge500 : ℕ
deriving DecidableEq

/-- Sum of the five bucket counters. -/
def bucketsSum (B : LatencyBuckets) : ℕ :=
  B.lt50 + B.lt100 + B.lt200 + B.lt500 + B.ge500

/-- The mutable statistics object (`route.ts:14-33`).  `minLatency` starts
at `Infinity` in the source; `none` models that initial value. -/
structure TestStats where
  queries : List QueryRecord
  totalQueries : ℕ
  successfulQueries : ℕ
  failedQueries : ℕ
  totalBytesTransferred : ℕ
  totalLatency : ℕ
  minLatency : Option ℕ
  maxLatency : ℕ
  errors : List (ℕ × String)
  startTime : ℕ
  endTime : ℕ
  latencyBuckets : LatencyBuckets
deriving DecidableEq

/-- Initial statistics `createStats()` (`route.ts:46-67`). -/
def createStats : TestStats where
  queries := []
  totalQueries := 0
  successfulQueries := 0
  failedQueries := 0
  totalBytesTransferred := 0
  totalLatency := 0
  minLatency := none
  maxLatency := 0
  errors := []
  startTime := 0
  endTime := 0
  latencyBuckets := ⟨0, 0, 0, 0, 0⟩

/-- The outcome of one call, as observed by the `try`/`catch` of the
execute functions: either a success with its measured latency, payload
size and requested limit, or a failure with its error message.  The query
number is the 1-based call index. -/
inductive CallOutcome
  | success (queryNum latency bytes limit : ℕ)
  | failure (queryNum : ℕ) (message : String)
deriving DecidableEq

/-- Whether an outcome is a failure. -/
def CallOutcome.isFailure : CallOutcome → Bool
  | .failure _ _ => true
  | .success _ _ _ _ => false

/-- The `if`/`else if` bucket chain of the execute functions
(`route.ts:87-91`): increments the bucket of the half-open interval the
latency falls in. -/
def bumpBucket (latency : ℕ) (B : LatencyBuckets) : LatencyBuckets :=
  if latency < 50 then { B with lt50 := B.lt50 + 1 }
  else if latency < 100 then { B with lt100 := B.lt100 + 1 }
  else if latency < 200 then { B with lt200 := B.lt200 + 1 }
  else if latency < 500 then { B with lt500 := B.lt500 + 1 }
  else { B with ge500 := B.ge500 + 1 }

/-- Update by `Math.min` against a `minLatency` that starts at `Infinity`
(`route.ts:84`): `Math.min(Infinity, x) = x`. -/
def updateMin (cur : Option ℕ) (latency : ℕ) : Option ℕ :=
  match cur with
  | none => some latency
  | some m => some (min m latency)

/-- The statistics mutation performed by one call of
`executeQueryWithSharedClient` / `executeQueryWithNewClient`
(`route.ts:69-133`; the `executeQuery` functions of the standalone scripts are
identical in their `stats` updates).  On success: `successfulQueries++`,
byte and latency sums, min/max update, one bucket increment, push onto
`queries`; on failure: `failedQueries++`, push onto `errors`; in both
cases the `finally` block does `totalQueries++`. -/
def record (stats : TestStats) (o : CallOutcome) : TestStats :=
  match o with
  | .success queryNum latency bytes limit =>
    { stats with
        successfulQueries := stats.successfulQueries + 1
        totalBytesTransferred := stats.totalBytesTransferred + bytes
        totalLatency := stats.totalLatency + latency
        minLatency := updateMin stats.minLatency latency
        maxLatency := max stats.maxLatency latency
        latencyBuckets := bumpBucket latency stats.latencyBuckets
        queries := stats.queries ++ [⟨queryNum, latency, bytes, limit⟩]
        totalQueries := stats.totalQueries + 1 }
  | .failure queryNum message =>
    { stats with
        failedQueries := stats.failedQueries + 1
        errors := stats.errors ++ [(queryNum, message)]
        totalQueries := stats.totalQueries + 1 }

/-- The statistics accumulated over a whole run: every call outcome fed
through `record`, starting from `createStats`. -/
def runStats (outcomes : List CallOutcome) : TestStats :=
  outcomes.foldl record createStats

/-! ## Batch dispatcher -/

/-- The batch sizes produced by the count-based dispatcher loop
(`route.ts:154-169`: `while (queryCount < totalQueries)` with
`batchSize = Math.min(concurrency, totalQueries - queryCount)`;
`load-test.mjs:79-89` slices the same way with `i += concurrency`).
The argument is the number of calls still to issue.  The JS loop never
terminates when `concurrency = 0`; that case is outside the spec
`concurrency ≥ 1` invariant and returns `[]` here so the function is
total. -/
def countBatches (concurrency : ℕ) (remaining : ℕ) : List ℕ :=
  if h : remaining = 0 ∨ concurrency = 0 then []
  else
    min concurrency remaining ::
      countBatches concurrency (remaining - min concurrency remaining)
termination_by remaining
decreasing_by
  have h1 : 0 < concurrency := Nat.pos_of_ne_zero (fun hc => h (Or.inr hc))
  have h2 : 0 < remaining := Nat.pos_of_ne_zero (fun hr => h (Or.inl hr))
  have h3 : 0 < min concurrency remaining := lt_min h1 h2
  omega

/-- The batch sizes produced by the dispatcher loop of the advanced script in
duration mode (comparison-script lines 139-156: `shouldContinue()` tests
the wall clock when `CONFIG.duration > 0`, yet the loop body still computes
`batchSize = Math.min(CONFIG.concurrency, CONFIG.totalQueries - queryCount)`
and advances `queryCount += batchSize`).  `ticks` is the number of loop
iterations the clock allows before `shouldContinue()` first returns false;
`queryCount` is the running count of issued calls.  Truncated subtraction
agrees with the JS value because `queryCount` never exceeds `totalQueries`
(each step adds at most the remainder). -/
def durationBatches (concurrency totalQueries : ℕ) : ℕ → ℕ → List ℕ
  | 0, _ => []
  | ticks + 1, queryCount =>
    min concurrency (totalQueries - queryCount) ::
      durationBatches concurrency totalQueries ticks
        (queryCount + min concurrency (totalQueries - queryCount))

/-- The inner batch-construction loop (`route.ts:158-165`): limits are
resolved one call at a time and each resolved call is pushed — and thereby
issued — immediately; a resolver error throws out of the loop, the calls
already pushed having been started.  Returns the limits of the issued
calls in launch order, and the fatal error if one was thrown. -/
def buildBatch (registry : String → Option PatternEntry) (pattern : String)
    (queryCount : ℕ) : ℕ → List ℕ × Option String
  | 0 => ([], none)
  | size + 1 =>
    match getQueryLimit registry pattern queryCount with
    | .error e => ([], some e)
    | .ok limit =>
      let rest := buildBatch registry pattern (queryCount + 1) size
      (limit :: rest.1, rest.2)

/-- The count-based `runLoadTest` loop (`route.ts:145-173`) at the level of
issued calls: batches of `min(concurrency, remaining)` built by
`buildBatch`; a fatal resolver error aborts the whole run (the `throw`
propagates out of `runLoadTest`).  Returns the limits of all issued calls
and the fatal error, if any.  As in `countBatches`, `concurrency = 0`
(which the JS loops on forever) is cut off to keep the function total. -/
def runDispatch (registry : String → Option PatternEntry) (pattern : String)
    (concurrency : ℕ) (remaining queryCount : ℕ) : List ℕ × Option String :=
  if h : remaining = 0 ∨ concurrency = 0 then ([], none)
  else
    let batchSize := min concurrency remaining
    let b := buildBatch registry pattern queryCount batchSize
    match b.2 with
    | some e => (b.1, some e)
    | none =>
      let rest := runDispatch registry pattern concurrency
        (remaining - batchSize) (queryCount + batchSize)
      (b.1 ++ rest.1, rest.2)
termination_by remaining
decreasing_by
  have h1 : 0 < concurrency := Nat.pos_of_ne_zero (fun hc => h (Or.inr hc))
  have h2 : 0 < remaining := Nat.pos_of_ne_zero (fun hr => h (Or.inl hr))
  have h3 : 0 < min concurrency remaining := lt_min h1 h2
  omega

/-! ## Percentile / histogram engine -/

/-- The ascending numeric sort `latencies.sort((a, b) => a - b)` used by
every statistic below (the ascending reordering of a list of naturals is
unique, so any correct sort represents it). -/
def sortLatencies (latencies : List ℕ) : List ℕ :=
  latencies.insertionSort (· ≤ ·)

/-- Function `calculateMedianLatency` of the comparison script (lines 474-481):
`0` for an empty list; otherwise, with `mid = ⌊n / 2⌋` over the
ascending-sorted latencies, the mean of `sorted[mid - 1]` and
`sorted[mid]` for even `n` and `sorted[mid]` for odd `n`.  The value is
the one computed before the `toFixed(0)` display formatting (report
formatting is outside the core per the spec). -/
def calculateMedianLatency (latencies : List ℕ) : ℚ :=
  if latencies.length = 0 then 0
  else
    let sorted := sortLatencies latencies
    let mid := sorted.length / 2
    if sorted.length % 2 = 0 then
      ((sorted.getD (mid - 1) 0 : ℚ) + (sorted.getD mid 0 : ℚ)) / 2
    else (sorted.getD mid 0 : ℚ)

/-- Function `calculatePercentile` of the comparison script (lines 484-489):
`0` for an empty list; otherwise the sorted element at index
`Math.ceil((percentile / 100) * n) - 1`, i.e. `⌈percentile · n / 100⌉ - 1`,
written `(percentile * n + 99) / 100 - 1` in `ℕ`.  The same formula
computes `p95Latency`/`p99Latency` in `route.ts:187-192`.  The
`latencies[index]?.toFixed(0) || 0` fallback is `getD _ 0` (the element
itself is an integer, so `toFixed(0)` does not change it). -/
def calculatePercentile (latencies : List ℕ) (percentile : ℕ) : ℕ :=
  if latencies.length = 0 then 0
  else
    let sorted := sortLatencies latencies
    let index := (percentile * sorted.length + 99) / 100 - 1
    sorted.getD index 0

/-- JS division, with `none` standing for the `NaN` (`0 / 0`) or
`±Infinity` (`x / 0`, `x ≠ 0`) produced by a zero denominator. -/
def jsDiv (a b : ℚ) : Option ℚ :=
  if b = 0 then none else some (a / b)

/-- The derived report of `calculateMetrics` (`route.ts:194-207`). -/
structure Metrics where
  duration : ℚ
  qps : Option ℚ
  avgLatency : ℚ
  medianLatency : ℕ
  p95Latency : ℕ
  p99Latency : ℕ
  minLatency : ℕ
  maxLatency : ℕ
  totalMB : ℚ
  successRate : Option ℚ
  latencyBuckets : LatencyBuckets
  errors : List (ℕ × String)
deriving DecidableEq

/-- Report computation `calculateMetrics` (`route.ts:175-208`).  `qps` and `successRate` are
unguarded divisions in the source (`totalQueries / totalDuration` and
`(successfulQueries / totalQueries) * 100`), hence `jsDiv`; `avgLatency`
is guarded by `successfulQueries > 0`; the median is the sorted element at
index `⌊n / 2⌋` (`route.ts:183-186`); min latency reports `0` when
`minLatency` is still `Infinity`. -/
def calculateMetrics (stats : TestStats) : Metrics :=
  let totalDuration : ℚ := ((stats.endTime : ℚ) - (stats.startTime : ℚ)) / 1000
  let latencies := sortLatencies (stats.queries.map (·.latency))
  { duration := totalDuration
    qps := jsDiv (stats.totalQueries : ℚ) totalDuration
    avgLatency :=
      if stats.successfulQueries > 0 then
        (stats.totalLatency : ℚ) / (stats.successfulQueries : ℚ)
      else 0
    medianLatency :=
      if latencies.length > 0 then latencies.getD (latencies.length / 2) 0 else 0
    p95Latency :=
      if latencies.length > 0 then
        latencies.getD ((95 * latencies.length + 99) / 100 - 1) 0
      else 0
    p99Latency :=
      if latencies.length > 0 then
        latencies.getD ((99 * latencies.length + 99) / 100 - 1) 0
      else 0
    minLatency := stats.minLatency.getD 0
    maxLatency := stats.maxLatency
    totalMB := (stats.totalBytesTransferred : ℚ) / 1024 / 1024
    successRate := (jsDiv (stats.successfulQueries : ℚ) (stats.totalQueries : ℚ)).map (· * 100)
    errors := stats.errors.take 5
    latencyBuckets := stats.latencyBuckets }

/-! ## Strategy comparator -/

/-- The per-strategy result record of the comparison script, returned by its
`displayResults` (lines 541-551). -/
structure StrategyReport where
  duration : ℚ
  qps : ℚ
  avgLatency : ℚ
  medianLatency : ℚ
  p95Latency : ℚ
  p99Latency : ℚ
  minLatency : ℚ
  maxLatency : ℚ
  totalMB : ℚ
deriving DecidableEq

/-- The two connection strategies being compared. -/
inductive Strategy
  | sharedClient
  | newClient
deriving DecidableEq

/-- Summary figure `avgLatencyImprovement` of `displayComparison` (line 593):
`(new.avgLatency - shared.avgLatency) / new.avgLatency * 100` — the
denominator is always the new-client (fresh) report. -/
def avgLatencyImprovement (shared fresh : StrategyReport) : ℚ :=
  (fresh.avgLatency - shared.avgLatency) / fresh.avgLatency * 100

/-- Summary figure `qpsImprovement` of `displayComparison` (line 594):
`(shared.qps - new.qps) / new.qps * 100` — again relative to the
new-client report. -/
def qpsImprovement (shared fresh : StrategyReport) : ℚ :=
  (shared.qps - fresh.qps) / fresh.qps * 100

/-- The summary verdict printed by `displayComparison`. -/
structure ComparisonVerdict where
  latencyWinner : Strategy
  latencyPercent : ℚ
  qpsWinner : Strategy
  qpsPercent : ℚ
deriving DecidableEq

/-- Rounding by `Number.prototype.toFixed(1)` followed by `parseFloat`, as
the source applies to both improvement figures before anything else
(comparison-script lines 593-594 compute the figure and call `.toFixed(1)`
on it, and line 596 branches on `parseFloat(...)`).  ECMAScript `toFixed`
extracts the sign, then picks the integer `n` minimizing
`|n / 10 - x|`, ties going to the larger `n`: round half away from zero on
the magnitude, to one decimal digit.  Modelled exactly over `ℚ`. -/
def jsToFixed1 (x : ℚ) : ℚ :=
  if x < 0 then -(((⌊-x * 10 + 1 / 2⌋ : ℤ) : ℚ) / 10)
  else ((⌊x * 10 + 1 / 2⌋ : ℤ) : ℚ) / 10

/-- The summary verdict logic of `displayComparison` (lines 593-606): the
improvement figures are rounded to one decimal by `toFixed(1)` first, and
the branch tests `parseFloat(...) > 0` on the rounded value — so the
shared client is declared faster iff the rounded improvement is strictly
positive, the `else` branch (declaring the new client faster) catching
exact ties and raw improvements below 0.05 alike — and the printed
magnitude is `Math.abs` of the rounded improvement, whose denominator is
the new-client value in both branches. -/
def displayComparisonVerdict (shared fresh : StrategyReport) : ComparisonVerdict where
  latencyWinner :=
    if 0 < jsToFixed1 (avgLatencyImprovement shared fresh) then .sharedClient else .newClient
  latencyPercent := |jsToFixed1 (avgLatencyImprovement shared fresh)|
  qpsWinner :=
    if 0 < jsToFixed1 (qpsImprovement shared fresh) then .sharedClient else .newClient
  qpsPercent := |jsToFixed1 (qpsImprovement shared fresh)|

/-- The latency half of the verdict as the spec words it, for comparison
with `displayComparisonVerdict`: lower average latency wins, the
percentage difference is `(other - winner) / other × 100` relative to the
non-winning report, and a tie yields no winner and no improvement. -/
def latencyVerdictSpec (shared fresh : StrategyReport) : Option (Strategy × ℚ) :=
  if shared.avgLatency < fresh.avgLatency then
    some (.sharedClient, (fresh.avgLatency - shared.avgLatency) / fresh.avgLatency * 100)
  else if fresh.avgLatency < shared.avgLatency then
    some (.newClient, (shared.avgLatency - fresh.avgLatency) / shared.avgLatency * 100)
  else none

/-! ## Helper lemmas -/

theorem bucketsSum_bumpBucket (latency : ℕ) (B : LatencyBuckets) :
    bucketsSum (bumpBucket latency B) = bucketsSum B + 1 := by
  unfold bumpBucket bucketsSum
  split_ifs <;> simp <;> omega

theorem record_preserves_inv (s : TestStats) (o : CallOutcome)
    (h1 : s.successfulQueries + s.failedQueries = s.totalQueries)
    (h2 : bucketsSum s.latencyBuckets = s.successfulQueries) :
    (record s o).successfulQueries + (record s o).failedQueries = (record s o).totalQueries
    ∧ bucketsSum (record s o).latencyBuckets = (record s o).successfulQueries := by
  cases o <;> simp [record, bucketsSum_bumpBucket, h2] <;> omega

theorem foldl_record_inv (outcomes : List CallOutcome) (s : TestStats)
    (h1 : s.successfulQueries + s.failedQueries = s.totalQueries)
    (h2 : bucketsSum s.latencyBuckets = s.successfulQueries) :
    (outcomes.foldl record s).successfulQueries + (outcomes.foldl record s).failedQueries
      = (outcomes.foldl record s).totalQueries
    ∧ bucketsSum (outcomes.foldl record s).latencyBuckets
      = (outcomes.foldl record s).successfulQueries := by
  induction outcomes generalizing s with
  | nil => exact ⟨h1, h2⟩
  | cons o rest ih =>
    exact ih (record s o) (record_preserves_inv s o h1 h2).1 (record_preserves_inv s o h1 h2).2

theorem foldl_record_failures (outcomes : List CallOutcome) (s : TestStats)
    (h : ∀ o ∈ outcomes, o.isFailure = true) :
    (outcomes.foldl record s).queries = s.queries
    ∧ (outcomes.foldl record s).successfulQueries = s.successfulQueries
    ∧ (outcomes.foldl record s).minLatency = s.minLatency
    ∧ (outcomes.foldl record s).maxLatency = s.maxLatency
    ∧ (outcomes.foldl record s).totalQueries = s.totalQueries + outcomes.length := by
  induction outcomes generalizing s with
  | nil => simp
  | cons o rest ih =>
    cases o with
    | success q l b lim => simpa [CallOutcome.isFailure] using h _ (List.mem_cons_self _ _)
    | failure q e =>
      have hrest : ∀ o ∈ rest, o.isFailure = true := fun o ho => h o (List.mem_cons_of_mem _ ho)
      have hmain := ih (record s (.failure q e)) hrest
      refine ⟨?_, ?_, ?_, ?_, ?_⟩
      · rw [List.foldl_cons, hmain.1]
        simp [record]
      · rw [List.foldl_cons, hmain.2.1]
        simp [record]
      · rw [List.foldl_cons, hmain.2.2.1]
        simp [record]
      · rw [List.foldl_cons, hmain.2.2.2.1]
        simp [record]
      · rw [List.foldl_cons, hmain.2.2.2.2]
        simp only [record, List.length_cons]
        omega

theorem sortLatencies_eq (l s : List ℕ) (hperm : s.Perm l) (hsort : s.Sorted (· ≤ ·)) :
    sortLatencies l = s :=
  List.eq_of_perm_of_sorted ((List.perm_insertionSort _ l).trans hperm.symm)
    (List.sorted_insertionSort _ l) hsort

theorem percentile_index_bounds (p n : ℕ) (hn : 1 ≤ n) (hp1 : 1 ≤ p) (hp2 : p ≤ 100) :
    1 ≤ (p * n + 99) / 100 ∧ (p * n + 99) / 100 - 1 ≤ n - 1 := by
  have hup : (p * n + 99) / 100 ≤ n := by
    have hle : p * n + 99 ≤ 100 * n + 99 := by
      have := Nat.mul_le_mul_right n hp2
      omega
    calc (p * n + 99) / 100 ≤ (100 * n + 99) / 100 := Nat.div_le_div_right hle
    _ = n := by rw [Nat.mul_add_div (by norm_num)]; norm_num
  have hlo : 1 ≤ (p * n + 99) / 100 := by
    rw [Nat.le_div_iff_mul_le (by norm_num : 0 < 100)]
    have : 1 ≤ p * n := Nat.one_le_iff_ne_zero.mpr (Nat.mul_ne_zero (by omega) (by omega))
    omega
  exact ⟨hlo, by omega⟩

theorem countBatches_sum (C N : ℕ) (hC : C ≠ 0) : (countBatches C N).sum = N := by
  induction N using Nat.strong_induction_on with
  | _ N ih =>
    rw [countBatches]
    split_ifs with h
    · rcases h with h | h
      · simp [h]
      · exact absurd h hC
    · push_neg at h
      have hmin : 0 < min C N :=
        lt_min (Nat.pos_of_ne_zero h.2) (Nat.pos_of_ne_zero h.1)
      have := ih (N - min C N) (by omega)
      simp only [List.sum_cons, this]
      omega

theorem countBatches_length (C N : ℕ) (hC : C ≠ 0) :
    (countBatches C N).length = (N + C - 1) / C := by
  induction N using Nat.strong_induction_on with
  | _ N ih =>
    rw [countBatches]
    split_ifs with h
    · rcases h with h | h
      · subst h
        simp [Nat.div_eq_of_lt (by omega : C - 1 < C)]
      · exact absurd h hC
    · push_neg at h
      have hC0 : 0 < C := Nat.pos_of_ne_zero h.2
      have hN0 : 0 < N := Nat.pos_of_ne_zero h.1
      have hmin : 0 < min C N := lt_min hC0 hN0
      have hrw : N + C - 1 = (N - 1) + C := by omega
      rw [hrw, Nat.add_div_right _ hC0]
      simp only [List.length_cons, ih (N - min C N) (by omega)]
      rcases le_or_lt N C with hle | hlt
      · have h1 : min C N = N := min_eq_right hle
        rw [h1]
        have e1 : N - N + C - 1 = C - 1 := by omega
        rw [e1, Nat.div_eq_of_lt (by omega : C - 1 < C),
          Nat.div_eq_of_lt (by omega : N - 1 < C)]
      · have h1 : min C N = C := min_eq_left (le_of_lt hlt)
        rw [h1]
        have e2 : N - C + C - 1 = (N - 1 - C) + C := by omega
        rw [e2, Nat.add_div_right _ hC0]
        have e3 : N - 1 = (N - 1 - C) + C := by omega
        conv_rhs => rw [e3, Nat.add_div_right _ hC0]

theorem countBatches_getD (C N : ℕ) (hC : C ≠ 0) :
    ∀ i, i < (countBatches C N).length →
      (countBatches C N).getD i 0 = min C (N - ((countBatches C N).take i).sum) := by
  induction N using Nat.strong_induction_on with
  | _ N ih =>
    intro i hi
    rw [countBatches] at hi ⊢
    split_ifs at hi ⊢ with h
    · simp at hi
    · push_neg at h
      have hmin : 0 < min C N :=
        lt_min (Nat.pos_of_ne_zero h.2) (Nat.pos_of_ne_zero h.1)
      cases i with
      | zero => simp
      | succ j =>
        simp only [List.length_cons, Nat.succ_lt_succ_iff] at hi
        simp only [List.getD_cons_succ, List.take_succ_cons, List.sum_cons]
        rw [ih (N - min C N) (by omega) j hi]
        congr 1
        omega

theorem countBatches_mem (C N : ℕ) (hC : C ≠ 0) :
    ∀ b ∈ countBatches C N, 1 ≤ b ∧ b ≤ C := by
  induction N using Nat.strong_induction_on with
  | _ N ih =>
    intro b hb
    rw [countBatches] at hb
    split_ifs at hb with h
    · simp at hb
    · push_neg at h
      have hmin : 0 < min C N :=
        lt_min (Nat.pos_of_ne_zero h.2) (Nat.pos_of_ne_zero h.1)
      rcases List.mem_cons.mp hb with rfl | hb
      · exact ⟨hmin, min_le_left _ _⟩
      · exact ih (N - min C N) (by omega) b hb

theorem durationBatches_bounds (C N : ℕ) :
    ∀ ticks qc, qc ≤ N →
      (∀ b ∈ durationBatches C N ticks qc, b ≤ C)
      ∧ (durationBatches C N ticks qc).sum + qc ≤ N := by
  intro ticks
  induction ticks with
  | zero => intro qc hqc; simp [durationBatches, hqc]
  | succ t ih =>
    intro qc hqc
    have hstep : qc + min C (N - qc) ≤ N := by omega
    have := ih (qc + min C (N - qc)) hstep
    constructor
    · intro b hb
      rcases List.mem_cons.mp hb with rfl | hb
      · exact min_le_left _ _
      · exact this.1 b hb
    · simp only [durationBatches, List.sum_cons]
      omega

theorem buildBatch_unknown (registry : String → Option PatternEntry) (pattern : String)
    (h : registry pattern = none) (qc size : ℕ) (hs : 1 ≤ size) :
    buildBatch registry pattern qc size = ([], some "TypeError: pattern not in registry") := by
  obtain ⟨s, rfl⟩ : ∃ s, size = s + 1 := ⟨size - 1, by omega⟩
  simp [buildBatch, getQueryLimit, h]

theorem improvement_pos_iff (a f : ℚ) (hf : 0 < f) :
    0 < a / f * 100 ↔ 0 < a := by
  rw [div_mul_eq_mul_div, lt_div_iff₀ hf]
  constructor <;> intro h <;> nlinarith

theorem jsToFixed1_pos_iff (x : ℚ) : 0 < jsToFixed1 x ↔ 1 / 20 ≤ x := by
  unfold jsToFixed1
  split_ifs with hx
  · constructor
    · intro hpos
      exfalso
      have h0 : (0 : ℤ) ≤ ⌊-x * 10 + 1 / 2⌋ := Int.floor_nonneg.mpr (by nlinarith)
      have h1 : (0 : ℚ) ≤ ((⌊-x * 10 + 1 / 2⌋ : ℤ) : ℚ) := by exact_mod_cast h0
      have h2 : (0 : ℚ) ≤ ((⌊-x * 10 + 1 / 2⌋ : ℤ) : ℚ) / 10 := by positivity
      linarith
    · intro hge
      exfalso
      linarith
  · push_neg at hx
    constructor
    · intro hpos
      have h1 : (0 : ℤ) < ⌊x * 10 + 1 / 2⌋ := by
        by_contra hc
        push_neg at hc
        have : ((⌊x * 10 + 1 / 2⌋ : ℤ) : ℚ) ≤ 0 := by exact_mod_cast hc
        nlinarith
      have h3 : ((1 : ℤ) : ℚ) ≤ x * 10 + 1 / 2 := Int.le_floor.mp h1
      push_cast at h3
      linarith
    · intro hge
      have h2 : (1 : ℤ) ≤ ⌊x * 10 + 1 / 2⌋ :=
        Int.le_floor.mpr (by push_cast; linarith)
      have h3 : (1 : ℚ) ≤ ((⌊x * 10 + 1 / 2⌋ : ℤ) : ℚ) := by exact_mod_cast h2
      linarith

theorem jsToFixed1_nonpos (x : ℚ) (hx : x ≤ 0) : jsToFixed1 x ≤ 0 := by
  unfold jsToFixed1
  split_ifs with h
  · have h0 : (0 : ℤ) ≤ ⌊-x * 10 + 1 / 2⌋ := Int.floor_nonneg.mpr (by nlinarith)
    have h1 : (0 : ℚ) ≤ ((⌊-x * 10 + 1 / 2⌋ : ℤ) : ℚ) := by exact_mod_cast h0
    have h2 : (0 : ℚ) ≤ ((⌊-x * 10 + 1 / 2⌋ : ℤ) : ℚ) / 10 := by positivity
    linarith
  · have hx0 : x = 0 := le_antisymm hx (not_lt.mp h)
    subst hx0
    norm_num

theorem jsToFixed1_neg_abs (x : ℚ) (hx : x ≤ 0) : |jsToFixed1 x| = jsToFixed1 (-x) := by
  rcases lt_or_eq_of_le hx with hlt | heq
  · unfold jsToFixed1
    rw [if_pos hlt, if_neg (by linarith : ¬-x < 0), abs_neg, abs_of_nonneg]
    have h0 : (0 : ℤ) ≤ ⌊-x * 10 + 1 / 2⌋ := Int.floor_nonneg.mpr (by nlinarith)
    have h1 : (0 : ℚ) ≤ ((⌊-x * 10 + 1 / 2⌋ : ℤ) : ℚ) := by exact_mod_cast h0
    positivity
  · subst heq
    have h00 : jsToFixed1 0 = 0 := by
      unfold jsToFixed1
      norm_num
    rw [neg_zero, h00, abs_zero]

/-! ## Claim theorems -/

/-- Claim C1, counterexample: the claim states that for every non-empty
latency list the reported median of an even-length list is the mean of the
two central sorted elements, in particular 25 for `[10, 20, 30, 40]`; but
`calculateMetrics` (`route.ts:183-186`) reports the sorted element at index
`⌊n / 2⌋`, which for the four successful calls with latencies
`[10, 20, 30, 40]` is `30`, not `25`. -/
theorem route_median_even_counterexample :
    (calculateMetrics (runStats
      [.success 1 10 0 1, .success 2 20 0 1, .success 3 30 0 1,
       .success 4 40 0 1])).medianLatency = 30
    ∧ (30 : ℕ) ≠ 25 := by
  constructor
  · decide
  · decide

/-- Claim C1, amended: the `calculateMedianLatency` of the comparison script
does satisfy the claim — for any non-empty latency list and any ascending
sorted arrangement `s` of it, the median is the mean of the two central
elements of `s` for even length and the exact central element for odd
length (so the examples 25 and 20 of the claim hold of it) — whereas
`calculateMetrics` in `route.ts` instead reports the sorted element at
index `⌊n / 2⌋`, the upper central element, for even length. -/
theorem calculateMedianLatency_central (l s : List ℕ)
    (hne : l ≠ []) (hperm : s.Perm l) (hsort : s.Sorted (· ≤ ·)) :
    (l.length % 2 = 0 →
      calculateMedianLatency l
        = ((s.getD (l.length / 2 - 1) 0 : ℚ) + (s.getD (l.length / 2) 0 : ℚ)) / 2)
    ∧ (l.length % 2 = 1 →
      calculateMedianLatency l = (s.getD (l.length / 2) 0 : ℚ)) := by
  have hs : sortLatencies l = s := sortLatencies_eq l s hperm hsort
  have hsl : s.length = l.length := hperm.length_eq
  have hne' : l.length ≠ 0 := fun h0 => hne (List.length_eq_zero.mp h0)
  constructor <;> intro hpar <;>
    simp [calculateMedianLatency, hne', hs, hsl, hpar]

/-- Claim C1, witness for the amended theorem: the two literal
examples, median 25 for `[10, 20, 30, 40]` and median 20 for
`[10, 20, 30]`. -/
theorem calculateMedianLatency_central_witness :
    calculateMedianLatency [10, 20, 30, 40] = 25
    ∧ calculateMedianLatency [10, 20, 30] = 20 := by
  have h4 := (calculateMedianLatency_central [10, 20, 30, 40] [10, 20, 30, 40]
    (by decide) (List.Perm.refl _) (by decide)).1 (by decide)
  have h3 := (calculateMedianLatency_central [10, 20, 30] [10, 20, 30]
    (by decide) (List.Perm.refl _) (by decide)).2 (by decide)
  norm_num [List.getD] at h4 h3
  exact ⟨h4, h3⟩

/-- Claim C2 (confirmed): for a non-empty latency list of length `n` and
`P ∈ {95, 99}`, the reported percentile (`calculatePercentile` in the
scripts, the same formula inline in `route.ts:187-192`) is the element at
index `⌈P·n/100⌉ - 1` of any ascending sorted arrangement, that index lying
within `[0, n-1]` (the ceiling is at least 1 and at most `n`), a
nearest-rank choice with no interpolation. -/
theorem calculatePercentile_nearest_rank (l s : List ℕ) (p : ℕ)
    (hne : l ≠ []) (hp : p = 95 ∨ p = 99)
    (hperm : s.Perm l) (hsort : s.Sorted (· ≤ ·)) :
    1 ≤ (p * l.length + 99) / 100
    ∧ (p * l.length + 99) / 100 - 1 ≤ l.length - 1
    ∧ calculatePercentile l p = s.getD ((p * l.length + 99) / 100 - 1) 0
    ∧ (∀ stats : TestStats,
        (calculateMetrics stats).p95Latency
          = calculatePercentile (stats.queries.map (·.latency)) 95
        ∧ (calculateMetrics stats).p99Latency
          = calculatePercentile (stats.queries.map (·.latency)) 99) := by
  have hs : sortLatencies l = s := sortLatencies_eq l s hperm hsort
  have hsl : s.length = l.length := hperm.length_eq
  have hne' : l.length ≠ 0 := fun h0 => hne (List.length_eq_zero.mp h0)
  have hb := percentile_index_bounds p l.length (by omega)
    (by rcases hp with rfl | rfl <;> norm_num)
    (by rcases hp with rfl | rfl <;> norm_num)
  refine ⟨hb.1, hb.2, by simp [calculatePercentile, hne', hs, hsl], ?_⟩
  intro stats
  have hlen : (sortLatencies (stats.queries.map (·.latency))).length
      = (stats.queries.map (·.latency)).length :=
    (List.perm_insertionSort _ _).length_eq
  constructor
  all_goals
    simp only [calculateMetrics, calculatePercentile, List.length_map, hlen]
    rcases eq_or_ne stats.queries [] with hq | hq
    · simp [hq, sortLatencies]
    · have hpos : 0 < stats.queries.length := List.length_pos.mpr hq
      simp [hq, hpos, Nat.pos_iff_ne_zero.mp hpos]

/-- Claim C2, witness: the literal example of the claim — 20 sorted latencies
`1..20` give P95 value 19 (index 18) and P99 value 20 (index 19). -/
theorem calculatePercentile_nearest_rank_witness :
    calculatePercentile (List.range' 1 20) 95 = 19
    ∧ calculatePercentile (List.range' 1 20) 99 = 20 := by
  have h95 := (calculatePercentile_nearest_rank (List.range' 1 20) (List.range' 1 20) 95
    (by decide) (Or.inl rfl) (List.Perm.refl _) (by decide)).2.2.1
  have h99 := (calculatePercentile_nearest_rank (List.range' 1 20) (List.range' 1 20) 99
    (by decide) (Or.inr rfl) (List.Perm.refl _) (by decide)).2.2.1
  rw [h95, h99]
  constructor <;> decide

/-- Claim C3, counterexample: the claim states that in duration mode every
iteration launches a batch of exactly `concurrency` calls regardless of
`totalCalls`; but the loop (comparison-script lines 146-156) still computes
`batchSize = min(concurrency, totalQueries - queryCount)`.  With
`concurrency = 2`, `totalQueries = 1` and a clock allowing two iterations,
the batches are `[1, 0]`, not `[2, 2]`: the first batch is already capped
by `totalQueries`, and after it the loop spins issuing empty batches. -/
theorem durationBatches_counterexample :
    durationBatches 2 1 2 0 = [1, 0] ∧ ([1, 0] : List ℕ) ≠ [2, 2] := by
  constructor
  · decide
  · decide

/-- Claim C3, amended: in duration-based mode the dispatcher does keep
iterating until the wall clock exhausts the time budget (the `ticks`
parameter counts the iterations the clock allows), but each iteration
launches `min(concurrency, totalCalls - issued)` calls — the same formula
as count-based mode — not `concurrency`; consequently every batch is at
most `concurrency`, the total number of issued calls never exceeds
`totalCalls`, and the first batch a clock-allowed loop launches has
exactly `min(concurrency, totalCalls - issued)` calls. -/
theorem durationBatches_min_formula (C N ticks qc : ℕ) (hqc : qc ≤ N) :
    (∀ b ∈ durationBatches C N ticks qc, b ≤ C)
    ∧ (durationBatches C N ticks qc).sum + qc ≤ N
    ∧ (1 ≤ ticks →
        (durationBatches C N ticks qc).head? = some (min C (N - qc))) := by
  refine ⟨(durationBatches_bounds C N ticks qc hqc).1,
    (durationBatches_bounds C N ticks qc hqc).2, ?_⟩
  intro ht
  obtain ⟨t, rfl⟩ : ∃ t, ticks = t + 1 := ⟨ticks - 1, by omega⟩
  simp [durationBatches]

/-- Claim C3, witness for the amended theorem: a duration-mode run with
`concurrency = 3`, `totalQueries = 10` and four clock-allowed iterations. -/
theorem durationBatches_min_formula_witness :
    (∀ b ∈ durationBatches 3 10 4 0, b ≤ 3)
    ∧ (durationBatches 3 10 4 0).sum + 0 ≤ 10
    ∧ (1 ≤ 4 →
        (durationBatches 3 10 4 0).head? = some (min 3 (10 - 0))) :=
  durationBatches_min_formula 3 10 4 0 (by omega)

/-- Claim C4 (confirmed): a count-based run with `totalCalls = N ≥ 1`,
`concurrency = C ≥ 1` and no duration budget issues exactly `N` calls
(the batch sizes sum to `N`), partitioned into `⌈N/C⌉` batches, where the
`i`-th batch has size `min(C, remaining)` — `remaining` being `N` minus the
calls issued by the previous batches — and hence no batch exceeds `C`
(`route.ts:145-173`, `load-test.mjs:79-95`). -/
theorem countBatches_partition (N C : ℕ) (hN : 1 ≤ N) (hC : 1 ≤ C) :
    (countBatches C N).sum = N
    ∧ (countBatches C N).length = (N + C - 1) / C
    ∧ (∀ i, i < (countBatches C N).length →
        (countBatches C N).getD i 0
          = min C (N - ((countBatches C N).take i).sum))
    ∧ (∀ b ∈ countBatches C N, b ≤ C) := by
  have hC0 : C ≠ 0 := by omega
  exact ⟨countBatches_sum C N hC0, countBatches_length C N hC0,
    countBatches_getD C N hC0,
    fun b hb => (countBatches_mem C N hC0 b hb).2⟩

/-- Claim C4, witness: `N = 7`, `C = 3` gives batches `[3, 3, 1]` — sum 7,
`⌈7/3⌉ = 3` batches, each of size `min(3, remaining)` and at most 3. -/
theorem countBatches_partition_witness :
    (countBatches 3 7).sum = 7
    ∧ (countBatches 3 7).length = (7 + 3 - 1) / 3
    ∧ (∀ i, i < (countBatches 3 7).length →
        (countBatches 3 7).getD i 0
          = min 3 (7 - ((countBatches 3 7).take i).sum))
    ∧ (∀ b ∈ countBatches 3 7, b ≤ 3) :=
  countBatches_partition 7 3 (by omega) (by omega)

/-- Claim C5 (confirmed): for every pattern name not present in the
registry, `getQueryLimit` fails — the property access on the undefined
registry entry throws, the failure the spec names `UnknownPatternError` —
for every call index; and the failure is fatal and pre-dispatch: the run
loop (`runDispatch`, modelling `route.ts:145-173` where the resolver is
called before each push) terminates with the error having dispatched no
call at all. -/
theorem getQueryLimit_unknown_pattern_aborts
    (registry : String → Option PatternEntry) (pattern : String)
    (hunknown : registry pattern = none) :
    (∀ i : ℕ, getQueryLimit registry pattern i
      = .error "TypeError: pattern not in registry")
    ∧ (∀ N C : ℕ, 1 ≤ N → 1 ≤ C →
        runDispatch registry pattern C N 0
          = ([], some "TypeError: pattern not in registry")) := by
  constructor
  · intro i
    simp [getQueryLimit, hunknown]
  · intro N C hN hC
    rw [runDispatch]
    have hcond : ¬(N = 0 ∨ C = 0) := by omega
    rw [dif_neg hcond]
    have hmin : 1 ≤ min C N := le_min hC hN
    simp [buildBatch_unknown registry pattern hunknown 0 (min C N) hmin]

/-- Claim C5, witness: the unknown pattern name `"bogus"` against the
registry of the route handler, with `totalQueries = 100`, `concurrency = 10`:
the resolver errors at index 0 and the run aborts with zero calls
dispatched. -/
theorem getQueryLimit_unknown_pattern_aborts_witness :
    (getQueryLimit TEST_PATTERNS_route "bogus" 0
      = .error "TypeError: pattern not in registry")
    ∧ (runDispatch TEST_PATTERNS_route "bogus" 10 100 0
      = ([], some "TypeError: pattern not in registry")) :=
  ⟨(getQueryLimit_unknown_pattern_aborts TEST_PATTERNS_route "bogus" rfl).1 0,
   (getQueryLimit_unknown_pattern_aborts TEST_PATTERNS_route "bogus" rfl).2 100 10
     (by omega) (by omega)⟩

/-- Claim C6 (code bug): the claim — and the requirement of the spec — is that a
report for a run with `totalCalls = 0` must not divide by zero in the QPS
and success-rate computations and that neither `NaN` nor `Infinity`
appears; but `calculateMetrics` (`route.ts:204`) computes
`(successfulQueries / totalQueries) * 100` unguarded, which for the
zero-outcome run evaluates `0 / 0 = NaN` (modelled `none`), and
`totalQueries / totalDuration` (`route.ts:177`) likewise evaluates `0 / 0`
when the elapsed time is zero.  Only `avgLatency` carries the guard the
spec asks for. -/
theorem successRate_division_unguarded :
    (runStats []).totalQueries = 0
    ∧ (calculateMetrics (runStats [])).successRate = none
    ∧ (calculateMetrics (runStats [])).qps = none
    ∧ (calculateMetrics (runStats [])).avgLatency = 0 := by
  refine ⟨by decide, ?_, ?_, ?_⟩ <;>
    simp [calculateMetrics, runStats, createStats, jsDiv]

/-- Claim C7 (confirmed): after every sequence of recorded call outcomes
the accumulator satisfies `successCount + failureCount = totalCalls` and
the five latency-bucket counters sum to `successCount`; moreover a
successful record increments exactly the bucket of the half-open interval
containing its latency — `[0,50)`, `[50,100)`, `[100,200)`, `[200,500)`,
`[500,∞)` — leaving the other four counters unchanged
(`route.ts:69-133`). -/
theorem record_invariants (outcomes : List CallOutcome) :
    ((runStats outcomes).successfulQueries + (runStats outcomes).failedQueries
      = (runStats outcomes).totalQueries)
    ∧ (bucketsSum (runStats outcomes).latencyBuckets
      = (runStats outcomes).successfulQueries)
    ∧ (∀ latency : ℕ, ∀ B : LatencyBuckets,
        bucketsSum (bumpBucket latency B) = bucketsSum B + 1
        ∧ (latency < 50 → bumpBucket latency B = { B with lt50 := B.lt50 + 1 })
        ∧ (50 ≤ latency → latency < 100 →
            bumpBucket latency B = { B with lt100 := B.lt100 + 1 })
        ∧ (100 ≤ latency → latency < 200 →
            bumpBucket latency B = { B with lt200 := B.lt200 + 1 })
        ∧ (200 ≤ latency → latency < 500 →
            bumpBucket latency B = { B with lt500 := B.lt500 + 1 })
        ∧ (500 ≤ latency →
            bumpBucket latency B = { B with ge500 := B.ge500 + 1 })) := by
  have hinv := foldl_record_inv outcomes createStats (by decide) (by decide)
  refine ⟨hinv.1, hinv.2, ?_⟩
  intro latency B
  refine ⟨bucketsSum_bumpBucket latency B, ?_, ?_, ?_, ?_, ?_⟩
  all_goals
    intros
    unfold bumpBucket
    split_ifs <;> first | rfl | (exfalso; omega)

/-- Claim C7, witness: a run of one success in the `[0,50)` bucket, one in
`[500,∞)` and one failure satisfies the counting invariants, and a latency
of 40 bumps exactly the first bucket. -/
theorem record_invariants_witness :
    ((runStats [.success 1 40 120 10, .success 2 600 80 10, .failure 3 "boom"]).successfulQueries
      + (runStats [.success 1 40 120 10, .success 2 600 80 10, .failure 3 "boom"]).failedQueries
      = (runStats [.success 1 40 120 10, .success 2 600 80 10, .failure 3 "boom"]).totalQueries)
    ∧ bumpBucket 40 ⟨0, 0, 0, 0, 0⟩ = ⟨1, 0, 0, 0, 0⟩ := by
  refine ⟨(record_invariants [.success 1 40 120 10, .success 2 600 80 10, .failure 3 "boom"]).1, ?_⟩
  have h := ((record_invariants []).2.2 40 ⟨0, 0, 0, 0, 0⟩).2.1 (by omega)
  simpa using h

/-- Claim C8 (confirmed): a finished run with at least one call in which
every call failed still yields a report (`calculateMetrics` throws
nowhere): the success rate is `(0 / totalCalls) * 100 = 0`, and all the
latency fields default to 0 — `avgLatency` by its `successCount > 0`
guard, median/P95/P99 because the sorted sample list is empty,
`minLatency` because it is still `Infinity` (reported as 0), and
`maxLatency` because it was never raised from 0 (`route.ts:175-208`). -/
theorem all_failures_report_defaults (outcomes : List CallOutcome)
    (hne : outcomes ≠ [])
    (hfail : ∀ o ∈ outcomes, o.isFailure = true) :
    (calculateMetrics (runStats outcomes)).successRate = some 0
    ∧ (calculateMetrics (runStats outcomes)).avgLatency = 0
    ∧ (calculateMetrics (runStats outcomes)).medianLatency = 0
    ∧ (calculateMetrics (runStats outcomes)).p95Latency = 0
    ∧ (calculateMetrics (runStats outcomes)).p99Latency = 0
    ∧ (calculateMetrics (runStats outcomes)).minLatency = 0
    ∧ (calculateMetrics (runStats outcomes)).maxLatency = 0 := by
  have hfold := foldl_record_failures outcomes createStats hfail
  have hlen : outcomes.length ≠ 0 := fun h0 => hne (List.length_eq_zero.mp h0)
  have htot : (runStats outcomes).totalQueries = outcomes.length := by
    have := hfold.2.2.2.2
    simpa [runStats, createStats] using this
  have hq : (runStats outcomes).queries = [] := by
    simpa [runStats, createStats] using hfold.1
  have hsucc : (runStats outcomes).successfulQueries = 0 := by
    simpa [runStats, createStats] using hfold.2.1
  have hmin : (runStats outcomes).minLatency = none := by
    simpa [runStats, createStats] using hfold.2.2.1
  have hmax : (runStats outcomes).maxLatency = 0 := by
    simpa [runStats, createStats] using hfold.2.2.2.1
  have htotQ : ((runStats outcomes).totalQueries : ℚ) ≠ 0 := by
    rw [htot]
    exact_mod_cast hlen
  refine ⟨?_, ?_, ?_, ?_, ?_, ?_, ?_⟩ <;>
    simp [calculateMetrics, jsDiv, hq, hsucc, hmin, hmax, htotQ, sortLatencies]

/-- Claim C8, witness: a run of three calls, all failing with
`"rate limited"`. -/
theorem all_failures_report_defaults_witness :
    (calculateMetrics (runStats
      [.failure 1 "rate limited", .failure 2 "rate limited",
       .failure 3 "rate limited"])).successRate = some 0
    ∧ (calculateMetrics (runStats
      [.failure 1 "rate limited", .failure 2 "rate limited",
       .failure 3 "rate limited"])).avgLatency = 0
    ∧ (calculateMetrics (runStats
      [.failure 1 "rate limited", .failure 2 "rate limited",
       .failure 3 "rate limited"])).medianLatency = 0
    ∧ (calculateMetrics (runStats
      [.failure 1 "rate limited", .failure 2 "rate limited",
       .failure 3 "rate limited"])).p95Latency = 0
    ∧ (calculateMetrics (runStats
      [.failure 1 "rate limited", .failure 2 "rate limited",
       .failure 3 "rate limited"])).p99Latency = 0
    ∧ (calculateMetrics (runStats
      [.failure 1 "rate limited", .failure 2 "rate limited",
       .failure 3 "rate limited"])).minLatency = 0
    ∧ (calculateMetrics (runStats
      [.failure 1 "rate limited", .failure 2 "rate limited",
       .failure 3 "rate limited"])).maxLatency = 0 :=
  all_failures_report_defaults
    [.failure 1 "rate limited", .failure 2 "rate limited", .failure 3 "rate limited"]
    (by decide) (by decide)

/-- Claim C9, counterexample: the claim states the reported percentage
difference is `(other - winner)/other × 100` relative to the non-winning
report, and that equal values yield no winner; but `displayComparison`
(comparison-script lines 593-606) always divides by the new-client value.
With shared average latency 50 and new-client average 40, the new client
wins and the claim demands `(50-40)/50 × 100 = 20`, yet the code reports
`|40-50|/40 × 100 = 25`; and with both averages equal to 40 the coded
`else` branch still declares the new client faster (by 0%) instead of
reporting no winner (spec comparison `latencyVerdictSpec` yields `none`). -/
theorem displayComparison_percent_counterexample :
    (displayComparisonVerdict ⟨0, 10, 50, 0, 0, 0, 0, 0, 0⟩
      ⟨0, 10, 40, 0, 0, 0, 0, 0, 0⟩).latencyPercent = 25
    ∧ latencyVerdictSpec ⟨0, 10, 50, 0, 0, 0, 0, 0, 0⟩
      ⟨0, 10, 40, 0, 0, 0, 0, 0, 0⟩ = some (.newClient, 20)
    ∧ (25 : ℚ) ≠ 20
    ∧ (displayComparisonVerdict ⟨0, 10, 40, 0, 0, 0, 0, 0, 0⟩
      ⟨0, 10, 40, 0, 0, 0, 0, 0, 0⟩).latencyWinner = .newClient
    ∧ latencyVerdictSpec ⟨0, 10, 40, 0, 0, 0, 0, 0, 0⟩
      ⟨0, 10, 40, 0, 0, 0, 0, 0, 0⟩ = none := by
  refine ⟨?_, ?_, by norm_num, ?_, ?_⟩ <;>
    norm_num [displayComparisonVerdict, avgLatencyImprovement, latencyVerdictSpec,
      jsToFixed1]

/-- Claim C9, amended: the branch test runs on the improvement rounded to
one decimal by `toFixed(1)`, so the shared client is declared the latency
winner exactly when the raw improvement `(fresh - shared)/fresh × 100` is
at least 0.05 (the rounded value is then strictly positive) — in which
case its average latency really is lower and the reported percentage is
the rounded claim-style figure relative to the fresh report (shared 40 vs
fresh 50 gives 20.0%).  Whenever the fresh average is less than or equal
to the shared one — including exact ties, reported as the new client
faster by 0.0% — the new client is declared faster, with the percentage
still relative to the fresh (winning) value, `(shared - fresh)/fresh ×
100` rounded.  The QPS half behaves the same way: shared wins exactly when
the raw QPS improvement reaches 0.05, and then its QPS really is
higher. -/
theorem displayComparison_verdict_amended (shared fresh : StrategyReport)
    (hl : 0 < fresh.avgLatency) (hq : 0 < fresh.qps) :
    ((displayComparisonVerdict shared fresh).latencyWinner = .sharedClient
      ↔ 1 / 20 ≤ avgLatencyImprovement shared fresh)
    ∧ (1 / 20 ≤ avgLatencyImprovement shared fresh →
      shared.avgLatency < fresh.avgLatency
      ∧ (displayComparisonVerdict shared fresh).latencyPercent
        = jsToFixed1 ((fresh.avgLatency - shared.avgLatency) / fresh.avgLatency * 100))
    ∧ (fresh.avgLatency ≤ shared.avgLatency →
      (displayComparisonVerdict shared fresh).latencyWinner = .newClient
      ∧ (displayComparisonVerdict shared fresh).latencyPercent
        = jsToFixed1 ((shared.avgLatency - fresh.avgLatency) / fresh.avgLatency * 100))
    ∧ ((displayComparisonVerdict shared fresh).qpsWinner = .sharedClient
      ↔ 1 / 20 ≤ qpsImprovement shared fresh)
    ∧ (1 / 20 ≤ qpsImprovement shared fresh → fresh.qps < shared.qps) := by
  have hlat : 0 < avgLatencyImprovement shared fresh ↔ shared.avgLatency < fresh.avgLatency := by
    unfold avgLatencyImprovement
    rw [improvement_pos_iff _ _ hl, sub_pos]
  have hqps : 0 < qpsImprovement shared fresh ↔ fresh.qps < shared.qps := by
    unfold qpsImprovement
    rw [improvement_pos_iff _ _ hq, sub_pos]
  have hlatr := jsToFixed1_pos_iff (avgLatencyImprovement shared fresh)
  have hqpsr := jsToFixed1_pos_iff (qpsImprovement shared fresh)
  refine ⟨?_, fun hge => ?_, fun hge => ?_, ?_, fun hge => ?_⟩
  · constructor
    · intro hwin
      by_contra hc
      have hnpos : ¬0 < jsToFixed1 (avgLatencyImprovement shared fresh) :=
        fun hp => hc (hlatr.mp hp)
      simp [displayComparisonVerdict, hnpos] at hwin
    · intro hge
      have hpos := hlatr.mpr hge
      simp [displayComparisonVerdict, hpos]
  · have hpos := hlatr.mpr hge
    refine ⟨hlat.mp (lt_of_lt_of_le (by norm_num) hge), ?_⟩
    simp only [displayComparisonVerdict]
    rw [abs_of_pos hpos]
    rfl
  · have hraw : avgLatencyImprovement shared fresh ≤ 0 := by
      unfold avgLatencyImprovement
      have h1 : (fresh.avgLatency - shared.avgLatency) / fresh.avgLatency ≤ 0 :=
        div_nonpos_of_nonpos_of_nonneg (by linarith) hl.le
      nlinarith
    have hnpos : ¬0 < jsToFixed1 (avgLatencyImprovement shared fresh) :=
      not_lt.mpr (jsToFixed1_nonpos _ hraw)
    refine ⟨by simp [displayComparisonVerdict, hnpos], ?_⟩
    simp only [displayComparisonVerdict]
    rw [jsToFixed1_neg_abs _ hraw]
    congr 1
    unfold avgLatencyImprovement
    ring
  · constructor
    · intro hwin
      by_contra hc
      have hnpos : ¬0 < jsToFixed1 (qpsImprovement shared fresh) :=
        fun hp => hc (hqpsr.mp hp)
      simp [displayComparisonVerdict, hnpos] at hwin
    · intro hge
      have hpos := hqpsr.mpr hge
      simp [displayComparisonVerdict, hpos]
  · exact hqps.mp (lt_of_lt_of_le (by norm_num) hge)

/-- Claim C9, witness for the amended theorem: the example of the claim —
shared average latency 40, new-client average 50 — has raw improvement
20 ≥ 0.05, so the shared client is the declared winner with a 20.0%
improvement. -/
theorem displayComparison_verdict_amended_witness :
    (displayComparisonVerdict ⟨0, 12, 40, 0, 0, 0, 0, 0, 0⟩
      ⟨0, 10, 50, 0, 0, 0, 0, 0, 0⟩).latencyWinner = .sharedClient
    ∧ (displayComparisonVerdict ⟨0, 12, 40, 0, 0, 0, 0, 0, 0⟩
      ⟨0, 10, 50, 0, 0, 0, 0, 0, 0⟩).latencyPercent = 20 := by
  have h := displayComparison_verdict_amended ⟨0, 12, 40, 0, 0, 0, 0, 0, 0⟩
    ⟨0, 10, 50, 0, 0, 0, 0, 0, 0⟩ (by norm_num) (by norm_num)
  have hge : (1 : ℚ) / 20 ≤ avgLatencyImprovement ⟨0, 12, 40, 0, 0, 0, 0, 0, 0⟩
      ⟨0, 10, 50, 0, 0, 0, 0, 0, 0⟩ := by
    norm_num [avgLatencyImprovement]
  refine ⟨h.1.mpr hge, ?_⟩
  rw [(h.2.1 hge).2]
  norm_num [jsToFixed1]

/-- Claim C10 (confirmed): recording a failed call changes only
`totalQueries` (incremented), `failedQueries` (incremented) and `errors`
(the failure appended); `successfulQueries`, the latency sum, min and max
latency, the byte total, all five bucket counters and the retained
successful-sample list are unchanged (`route.ts:95-101`, `route.ts:126-132`
and the catch/finally blocks of the comparison script). -/
theorem record_failure_frame (s : TestStats) (queryNum : ℕ) (message : String) :
    (record s (.failure queryNum message)).totalQueries = s.totalQueries + 1
    ∧ (record s (.failure queryNum message)).failedQueries = s.failedQueries + 1
    ∧ (record s (.failure queryNum message)).errors = s.errors ++ [(queryNum, message)]
    ∧ (record s (.failure queryNum message)).successfulQueries = s.successfulQueries
    ∧ (record s (.failure queryNum message)).totalLatency = s.totalLatency
    ∧ (record s (.failure queryNum message)).minLatency = s.minLatency
    ∧ (record s (.failure queryNum message)).maxLatency = s.maxLatency
    ∧ (record s (.failure queryNum message)).totalBytesTransferred = s.totalBytesTransferred
    ∧ (record s (.failure queryNum message)).latencyBuckets = s.latencyBuckets
    ∧ (record s (.failure queryNum message)).queries = s.queries := by
  simp [record]

end LoadTester
